import Mathlib

/-!
Shallow embedding of the Istio sidecar-injection analyzer
(`galley/pkg/config/analysis/analyzers/injection/injection.go`).

The analyzer makes three sequential passes over an immutable snapshot:
pass 1 collects the revision labels of control-plane pods, pass 2
classifies every non-system namespace from its labels and the revision
set, pass 3 checks pods of injected namespaces for a sidecar container.

Modelling notes:
* Go label/annotation maps are embedded as association lists with
  first-match lookup (snapshot maps have unique keys); Go's `m[k]`
  yields the zero value `""` for a missing key, embedded as `lookupD`.
* The Go code reads the `app` label through `pod.GetLabels()` and the
  revision label through `r.Metadata.Labels`; the snapshot collaborator
  materialises the same mapping in both places (the spec's data model
  gives a resource one label mapping), so a pod instance here carries a
  single `labels` field used for both reads.
* `for k := range m` on a Go map enumerates each key exactly once in an
  unspecified order.  Pass 1's `revisions` slice is built by such a
  range over `controlPlaneRevisions`; the enumeration order is made an
  explicit parameter `enumOrder` of `analyze`, admissible when it is a
  permutation of the discovered revision set.
-/

/-- A container of a pod spec: a name and an image reference string. -/
structure Container where
  name : String
  image : String
deriving DecidableEq, Repr

/-- A pod resource instance: the resource full name, the label mapping,
the annotation mapping (`annots`), the pod's namespace and its container
list. -/
structure PodInstance where
  fullName : String
  ns : String
  labels : List (String × String)
  annots : List (String × String)
  containers : List Container
deriving DecidableEq, Repr

/-- A namespace resource instance: its full name and its label mapping. -/
structure NamespaceInstance where
  fullName : String
  labels : List (String × String)
deriving DecidableEq, Repr

/-- Go `v, ok := m[k]` on a label/annotation mapping: the first binding
of the key, if any. -/
def lookupKey (m : List (String × String)) (k : String) : Option String :=
  (m.find? (fun p => p.1 == k)).map (·.2)

/-- Go `m[k]` on a string-valued map: the bound value, or the zero value
`""` when the key is absent. -/
def lookupD (m : List (String × String)) (k : String) : String :=
  (lookupKey m k).getD ""

/-- `InjectionLabelName`: the legacy enablement label. -/
def InjectionLabelName : String := "istio-injection"

/-- `InjectionLabelEnableValue`: the only legacy value that enables injection. -/
def InjectionLabelEnableValue : String := "enabled"

/-- Modelled from the spec: `model.RevisionLabel` is imported from
`pilot/pkg/model`, which is not among the sources; the spec's end-to-end
scenario A fixes the revision label as `istio.io/rev`. -/
def RevisionInjectionLabelName : String := "istio.io/rev"

/-- `istioProxyName`: the reserved sidecar container name. -/
def istioProxyName : String := "istio-proxy"

/-- Modelled from the spec: `constants.IstioSystemNamespace` is imported
from `pkg/config/constants`, which is not among the sources; the spec's
glossary calls it the reserved mesh system namespace, `istio-system`. -/
def IstioSystemNamespace : String := "istio-system"

/-- Modelled from the spec: `annotation.SidecarInject.Name` is imported
from `istio.io/api/annotation`, which is not among the sources; the
spec's end-to-end scenario C fixes it as `sidecar.istio.io/inject`. -/
def sidecarInjectKey : String := "sidecar.istio.io/inject"

/-- `isControlPlane`: a pod is control plane iff its namespace is the
reserved mesh system namespace and its `app` label equals `istiod`. -/
def isControlPlane (p : PodInstance) : Bool :=
  p.ns == IstioSystemNamespace && lookupD p.labels "app" == "istiod"

/-- The revision contributed by one pod in pass 1: its revision label
value when the pod is control plane and carries the label. -/
def cpRevision (p : PodInstance) : Option String :=
  if isControlPlane p then lookupKey p.labels RevisionInjectionLabelName
  else none

/-- One insertion `controlPlaneRevisions[revision] = true` of pass 1:
a Go map insert keeps the key set's first-insertion order. -/
def discoverStep (acc : List String) (p : PodInstance) : List String :=
  match cpRevision p with
  | some rev => if rev ∈ acc then acc else acc ++ [rev]
  | none => acc

/-- Pass 1 (`controlPlaneRevisions`): the key set of the Go map, as the
list of distinct revisions in first-insertion (discovery) order. -/
def discoveredRevisions (pods : List PodInstance) : List String :=
  pods.foldl discoverStep []

/-- A diagnostic reported by the analyzer.  Argument order follows the
`msg.New*` constructors; the Go messages repeat the namespace full name
twice, carried once here. -/
inductive Diag where
  | nsNotInjected (ns : String)
  | nsMultipleInjectionLabels (ns : String)
  | nsInvalidInjectorRevision (revision ns knownRevisions : String)
  | podMissingProxy (pod : String)
deriving DecidableEq, Repr

/-- The namespace a namespace-policy diagnostic refers to; `none` for
the pod diagnostic. -/
def nsDiagName : Diag → Option String
  | .nsNotInjected ns => some ns
  | .nsMultipleInjectionLabels ns => some ns
  | .nsInvalidInjectorRevision _ ns _ => some ns
  | .podMissingProxy _ => none

/-- One iteration of the pass-2 namespace callback: the diagnostic it
reports (if any) and whether it adds the namespace to the injected set.
`revSet` is the `controlPlaneRevisions` map (membership only), `joined`
the pre-joined `revisions` string. -/
def resolveNs (isSystem : String → Bool) (revSet : List String)
    (joined : String) (r : NamespaceInstance) : Option Diag × Bool :=
  if isSystem r.fullName then (none, false)
  else
    let injectionLabel := lookupD r.labels InjectionLabelName
    let newInjectionLabel := lookupKey r.labels RevisionInjectionLabelName
    if injectionLabel == "" && !newInjectionLabel.isSome then
      (some (.nsNotInjected r.fullName), false)
    else
      match newInjectionLabel with
      | some v =>
        if injectionLabel != "" then
          (some (.nsMultipleInjectionLabels r.fullName), false)
        else if v ∈ revSet then (none, true)
        else (some (.nsInvalidInjectorRevision v r.fullName joined), false)
      | none =>
        if injectionLabel != InjectionLabelEnableValue then (none, false)
        else (none, true)

/-- Pass 2, diagnostic stream: the loop appends at most one diagnostic
per namespace, in snapshot iteration order. -/
def nsDiags (isSystem : String → Bool) (revSet : List String)
    (joined : String) (nss : List NamespaceInstance) : List Diag :=
  nss.filterMap (fun r => (resolveNs isSystem revSet joined r).1)

/-- Pass 2, `injectedNamespaces`: the names the loop marks injected. -/
def injectedNamespaces (isSystem : String → Bool) (revSet : List String)
    (joined : String) (nss : List NamespaceInstance) : List String :=
  (nss.filter (fun r => (resolveNs isSystem revSet joined r).2)).map (·.fullName)

/-- Go `strings.EqualFold val "false"`: Unicode simple case folding
against the word `false`; the fold classes of its letters admit the
ASCII cases plus `ſ` (U+017F), which folds with `s`. -/
def eqFoldFalse (s : String) : Bool :=
  match s.toList with
  | [c0, c1, c2, c3, c4] =>
    (c0 == 'f' || c0 == 'F') && (c1 == 'a' || c1 == 'A') &&
    (c2 == 'l' || c2 == 'L') && (c3 == 's' || c3 == 'S' || c3 == 'ſ') &&
    (c4 == 'e' || c4 == 'E')
  | _ => false

/-- The image of the first container named `istio-proxy`, or `""`:
the Go loop assigns `proxyImage` from the first match and breaks. -/
def firstProxyImage (p : PodInstance) : String :=
  match p.containers.find? (fun c => c.name == istioProxyName) with
  | some c => c.image
  | none => ""

/-- One iteration of the pass-3 pod callback: skip pods of non-injected
namespaces, skip pods annotated (case-insensitively) `false`, otherwise
report `pod-missing-proxy` when the first `istio-proxy` container is
absent or has an empty image. -/
def checkPod (injected : List String) (p : PodInstance) : Option Diag :=
  if p.ns ∉ injected then none
  else if eqFoldFalse (lookupD p.annots sidecarInjectKey) then none
  else if firstProxyImage p == "" then some (.podMissingProxy p.fullName)
  else none

/-- Pass 3, diagnostic stream. -/
def podDiags (injected : List String) (pods : List PodInstance) : List Diag :=
  pods.filterMap (checkPod injected)

/-- `Analyzer.Analyze`: the full three-pass run, emitting pass-2 then
pass-3 diagnostics.  `isSystem` is the externally supplied
system-namespace predicate (`util.IsSystemNamespace`); `enumOrder` is
the order in which the Go map range of pass 1 enumerates
`controlPlaneRevisions` (admissible when it is a permutation of
`discoveredRevisions pods`); the `revisions` slice is joined with
`", "`. -/
def analyze (isSystem : String → Bool) (enumOrder : List String)
    (nss : List NamespaceInstance) (pods : List PodInstance) : List Diag :=
  nsDiags isSystem (discoveredRevisions pods)
      (String.intercalate ", " enumOrder) nss
    ++ podDiags (injectedNamespaces isSystem (discoveredRevisions pods)
      (String.intercalate ", " enumOrder) nss) pods

/-- Erase the `knownRevisions` argument of an invalid-revision
diagnostic; identity on every other diagnostic.  Quotients out the one
field whose content depends on the Go map enumeration order. -/
def eraseKnownRevisions : Diag → Diag
  | .nsInvalidInjectorRevision v ns _ => .nsInvalidInjectorRevision v ns ""
  | d => d

/-- The five namespace outcomes of the spec's decision table. -/
inductive NsOutcome where
  | notInjectedByAbsence
  | multipleLabelConflict
  | invalidRevision
  | enabled
  | explicitlyDisabled
deriving DecidableEq, Repr

/-- The outcome a pass-2 iteration result realises, when its shape is
one of the five admissible ones. -/
def nsOutcome : Option Diag × Bool → Option NsOutcome
  | (some (.nsNotInjected _), false) => some .notInjectedByAbsence
  | (some (.nsMultipleInjectionLabels _), false) => some .multipleLabelConflict
  | (some (.nsInvalidInjectorRevision _ _ _), false) => some .invalidRevision
  | (none, true) => some .enabled
  | (none, false) => some .explicitlyDisabled
  | (some (.podMissingProxy _), _) => none
  | (some _, true) => none

/-! Concrete snapshots used by witnesses and counterexamples. -/

/-- A system-namespace predicate holding nowhere. -/
def sysNone : String → Bool := fun _ => false

/-- A system-namespace predicate holding exactly on `istio-system`. -/
def sysIstio : String → Bool := fun s => s == "istio-system"

/-- A control-plane pod carrying revision `a`. -/
def cpA : PodInstance :=
  ⟨"istio-system/istiod-a", "istio-system",
    [("app", "istiod"), ("istio.io/rev", "a")], [], []⟩

/-- A control-plane pod carrying revision `b`. -/
def cpB : PodInstance :=
  ⟨"istio-system/istiod-b", "istio-system",
    [("app", "istiod"), ("istio.io/rev", "b")], [], []⟩

/-- A control-plane pod carrying revision `canary`. -/
def cpCanary : PodInstance :=
  ⟨"istio-system/istiod-1", "istio-system",
    [("app", "istiod"), ("istio.io/rev", "canary")], [], []⟩

/-- A namespace requesting the unknown revision `zzz`. -/
def nsBad : NamespaceInstance := ⟨"nsb", [("istio.io/rev", "zzz")]⟩

/-- A namespace requesting the stale revision `stale`. -/
def nsStale : NamespaceInstance := ⟨"ns1", [("istio.io/rev", "stale")]⟩

/-- A namespace with the legacy label set to `enabled`. -/
def nsEnabled : NamespaceInstance := ⟨"ns3", [("istio-injection", "enabled")]⟩

/-- A namespace with both labels set to non-empty values. -/
def nsBoth : NamespaceInstance :=
  ⟨"nsboth", [("istio-injection", "enabled"), ("istio.io/rev", "a")]⟩

/-- A namespace with no injection labels at all. -/
def nsPlain : NamespaceInstance := ⟨"ns2", []⟩

/-- A namespace whose legacy label is present with the empty value. -/
def nsLegacyEmptyOnly : NamespaceInstance := ⟨"ns6", [("istio-injection", "")]⟩

/-- A namespace with an empty legacy label and a revision label. -/
def nsLegacyEmptyRev : NamespaceInstance :=
  ⟨"ns7", [("istio-injection", ""), ("istio.io/rev", "x")]⟩

/-- A namespace with a non-empty, non-enabling legacy label. -/
def nsDisabled : NamespaceInstance := ⟨"ns8", [("istio-injection", "disabled")]⟩

/-- A heavily labelled namespace named `istio-system`. -/
def nsSystem : NamespaceInstance :=
  ⟨"istio-system", [("istio-injection", "enabled"), ("istio.io/rev", "x")]⟩

/-- A pod of `ns3` with no sidecar container. -/
def podNoProxy : PodInstance := ⟨"ns3/p4", "ns3", [], [], [⟨"app", "x"⟩]⟩

/-- A pod of `ns3` listing `istio-proxy` twice: first with an empty
image, then with a non-empty one. -/
def podDupProxy : PodInstance :=
  ⟨"ns3/pd", "ns3", [], [],
    [⟨"istio-proxy", ""⟩, ⟨"istio-proxy", "proxy:2"⟩]⟩

/-! Helper lemmas. -/

lemma mem_discoverStep {acc : List String} {p : PodInstance} {s : String} :
    s ∈ discoverStep acc p ↔ s ∈ acc ∨ cpRevision p = some s := by
  unfold discoverStep
  cases hcp : cpRevision p with
  | none => simp
  | some rev =>
    by_cases hrev : rev ∈ acc
    · simp only [hrev, if_pos, Option.some.injEq]
      constructor
      · exact Or.inl
      · rintro (h | rfl)
        · exact h
        · exact hrev
    · simp [hrev, List.mem_append, eq_comm]

lemma mem_foldl_discoverStep (pods : List PodInstance) (acc : List String)
    (s : String) :
    s ∈ pods.foldl discoverStep acc ↔
      s ∈ acc ∨ ∃ p, p ∈ pods ∧ cpRevision p = some s := by
  induction pods generalizing acc with
  | nil => simp
  | cons p rest ih =>
    rw [List.foldl_cons, ih, mem_discoverStep]
    constructor
    · rintro ((h | h) | ⟨q, hq, hcq⟩)
      · exact Or.inl h
      · exact Or.inr ⟨p, List.mem_cons_self p rest, h⟩
      · exact Or.inr ⟨q, List.mem_cons_of_mem p hq, hcq⟩
    · rintro (h | ⟨q, hq, hcq⟩)
      · exact Or.inl (Or.inl h)
      · rcases List.mem_cons.mp hq with rfl | hq2
        · exact Or.inl (Or.inr hcq)
        · exact Or.inr ⟨q, hq2, hcq⟩

lemma mem_discoveredRevisions {pods : List PodInstance} {s : String} :
    s ∈ discoveredRevisions pods ↔ ∃ p, p ∈ pods ∧ cpRevision p = some s := by
  rw [discoveredRevisions, mem_foldl_discoverStep]
  simp

lemma resolveNs_system {isSys : String → Bool} {revSet : List String}
    {joined : String} {r : NamespaceInstance} (h : isSys r.fullName = true) :
    resolveNs isSys revSet joined r = (none, false) := by
  simp [resolveNs, h]

lemma resolveNs_fst_name {isSys : String → Bool} {revSet : List String}
    {joined : String} {r : NamespaceInstance} {d : Diag}
    (h : (resolveNs isSys revSet joined r).1 = some d) :
    nsDiagName d = some r.fullName := by
  unfold resolveNs at h
  split at h
  · simp at h
  · simp only at h
    split at h
    · simp only [Prod.fst] at h
      cases h
      rfl
    · split at h
      · split at h
        · cases h
          rfl
        · split at h
          · simp at h
          · cases h
            rfl
      · split at h
        · simp at h
        · simp at h

lemma resolveNs_absent_absent {isSys : String → Bool} {revSet : List String}
    {joined : String} {r : NamespaceInstance}
    (hsys : isSys r.fullName = false)
    (hleg : lookupD r.labels InjectionLabelName = "")
    (hrev : lookupKey r.labels RevisionInjectionLabelName = none) :
    resolveNs isSys revSet joined r = (some (.nsNotInjected r.fullName), false) := by
  simp [resolveNs, hsys, hleg, hrev]

lemma resolveNs_rev_valid {isSys : String → Bool} {revSet : List String}
    {joined : String} {r : NamespaceInstance} {v : String}
    (hsys : isSys r.fullName = false)
    (hleg : lookupD r.labels InjectionLabelName = "")
    (hrev : lookupKey r.labels RevisionInjectionLabelName = some v)
    (hin : v ∈ revSet) :
    resolveNs isSys revSet joined r = (none, true) := by
  simp [resolveNs, hsys, hleg, hrev, hin]

lemma resolveNs_rev_invalid {isSys : String → Bool} {revSet : List String}
    {joined : String} {r : NamespaceInstance} {v : String}
    (hsys : isSys r.fullName = false)
    (hleg : lookupD r.labels InjectionLabelName = "")
    (hrev : lookupKey r.labels RevisionInjectionLabelName = some v)
    (hout : v ∉ revSet) :
    resolveNs isSys revSet joined r
      = (some (.nsInvalidInjectorRevision v r.fullName joined), false) := by
  simp [resolveNs, hsys, hleg, hrev, hout]

lemma resolveNs_both {isSys : String → Bool} {revSet : List String}
    {joined : String} {r : NamespaceInstance} {v : String}
    (hsys : isSys r.fullName = false)
    (hleg : lookupD r.labels InjectionLabelName ≠ "")
    (hrev : lookupKey r.labels RevisionInjectionLabelName = some v) :
    resolveNs isSys revSet joined r
      = (some (.nsMultipleInjectionLabels r.fullName), false) := by
  simp [resolveNs, hsys, hleg, hrev]

lemma resolveNs_legacy_other {isSys : String → Bool} {revSet : List String}
    {joined : String} {r : NamespaceInstance}
    (hsys : isSys r.fullName = false)
    (hleg : lookupD r.labels InjectionLabelName ≠ "")
    (hlegE : lookupD r.labels InjectionLabelName ≠ InjectionLabelEnableValue)
    (hrev : lookupKey r.labels RevisionInjectionLabelName = none) :
    resolveNs isSys revSet joined r = (none, false) := by
  simp [resolveNs, hsys, hleg, hrev, hlegE]

lemma resolveNs_legacy_enabled {isSys : String → Bool} {revSet : List String}
    {joined : String} {r : NamespaceInstance}
    (hsys : isSys r.fullName = false)
    (hleg : lookupD r.labels InjectionLabelName = InjectionLabelEnableValue)
    (hrev : lookupKey r.labels RevisionInjectionLabelName = none) :
    resolveNs isSys revSet joined r = (none, true) := by
  simp [resolveNs, hsys, hleg, hrev, InjectionLabelEnableValue]

lemma mem_nsDiags {isSys : String → Bool} {revSet : List String}
    {joined : String} {nss : List NamespaceInstance} {d : Diag} :
    d ∈ nsDiags isSys revSet joined nss ↔
      ∃ r, r ∈ nss ∧ (resolveNs isSys revSet joined r).1 = some d := by
  simp [nsDiags, List.mem_filterMap]

lemma mem_injectedNamespaces {isSys : String → Bool} {revSet : List String}
    {joined : String} {nss : List NamespaceInstance} {nm : String} :
    nm ∈ injectedNamespaces isSys revSet joined nss ↔
      ∃ r, r ∈ nss ∧ (resolveNs isSys revSet joined r).2 = true
        ∧ r.fullName = nm := by
  simp [injectedNamespaces, List.mem_map, List.mem_filter]
  constructor
  · rintro ⟨r, ⟨hr, h2⟩, hnm⟩
    exact ⟨r, hr, h2, hnm⟩
  · rintro ⟨r, hr, h2, hnm⟩
    exact ⟨r, ⟨hr, h2⟩, hnm⟩

lemma fullName_inj {nss : List NamespaceInstance}
    (hnodup : (nss.map NamespaceInstance.fullName).Nodup)
    {r n : NamespaceInstance} (hr : r ∈ nss) (hn : n ∈ nss)
    (h : r.fullName = n.fullName) : r = n :=
  List.inj_on_of_nodup_map hnodup hr hn h

lemma not_mem_nsDiags_of_name {isSys : String → Bool} {revSet : List String}
    {joined : String} {nss : List NamespaceInstance} {d : Diag} {nm : String}
    (hname : nsDiagName d = some nm)
    (hnm : ∀ r, r ∈ nss → r.fullName ≠ nm) :
    d ∉ nsDiags isSys revSet joined nss := by
  intro hd
  obtain ⟨r, hr, hfr⟩ := mem_nsDiags.mp hd
  have := resolveNs_fst_name hfr
  rw [hname] at this
  exact hnm r hr (Option.some.inj this).symm

lemma count_nsDiags_one {isSys : String → Bool} {revSet : List String}
    {joined : String} {nss : List NamespaceInstance}
    {n : NamespaceInstance} {d : Diag}
    (hnodup : (nss.map NamespaceInstance.fullName).Nodup)
    (hmem : n ∈ nss)
    (hres : (resolveNs isSys revSet joined n).1 = some d) :
    (nsDiags isSys revSet joined nss).count d = 1 := by
  have hdname : nsDiagName d = some n.fullName := resolveNs_fst_name hres
  induction nss with
  | nil => cases hmem
  | cons r rest ih =>
    simp only [List.map_cons, List.nodup_cons, List.mem_map] at hnodup
    obtain ⟨hrnot, hnodup2⟩ := hnodup
    rcases List.mem_cons.mp hmem with heq | hmemr
    · subst heq
      rw [nsDiags, List.filterMap_cons, hres, List.count_cons_self]
      have h0 : d ∉ nsDiags isSys revSet joined rest := by
        refine not_mem_nsDiags_of_name hdname (fun r2 hr2 hne => ?_)
        exact hrnot ⟨r2, hr2, hne⟩
      rw [nsDiags] at h0
      rw [List.count_eq_zero.mpr h0]
    · have hne : r.fullName ≠ n.fullName := by
        intro h
        exact hrnot ⟨n, hmemr, h.symm⟩
      rw [nsDiags, List.filterMap_cons]
      cases hfr : (resolveNs isSys revSet joined r).1 with
      | none => exact ih hnodup2 hmemr
      | some d2 =>
        have hd2 : nsDiagName d2 = some r.fullName := resolveNs_fst_name hfr
        have hdne : d ≠ d2 := by
          intro h
          rw [h, hd2] at hdname
          exact hne (Option.some.inj hdname)
        rw [List.count_cons_of_ne hdne]
        exact ih hnodup2 hmemr

lemma countP_name_nsDiags_le_one {isSys : String → Bool}
    {revSet : List String} {joined : String} {nss : List NamespaceInstance}
    {nm : String}
    (hnodup : (nss.map NamespaceInstance.fullName).Nodup) :
    (nsDiags isSys revSet joined nss).countP
      (fun d => nsDiagName d == some nm) ≤ 1 := by
  induction nss with
  | nil => simp [nsDiags]
  | cons r rest ih =>
    simp only [List.map_cons, List.nodup_cons, List.mem_map] at hnodup
    obtain ⟨hrnot, hnodup2⟩ := hnodup
    rw [nsDiags, List.filterMap_cons]
    cases hfr : (resolveNs isSys revSet joined r).1 with
    | none => exact ih hnodup2
    | some d =>
      rw [List.countP_cons]
      by_cases hd : (nsDiagName d == some nm) = true
      · have hd2 : nsDiagName d = some r.fullName := resolveNs_fst_name hfr
        have hrnm : r.fullName = nm := by
          rw [hd2] at hd
          exact Option.some.inj (beq_iff_eq.mp hd)
        have h0 : (nsDiags isSys revSet joined rest).countP
            (fun d2 => nsDiagName d2 == some nm) = 0 := by
          rw [List.countP_eq_zero]
          intro d2 hd2m
          obtain ⟨r2, hr2, hfr2⟩ := mem_nsDiags.mp hd2m
          have hn2 : nsDiagName d2 = some r2.fullName := resolveNs_fst_name hfr2
          rw [hn2]
          intro hbe
          have : r2.fullName = nm := Option.some.inj (beq_iff_eq.mp hbe)
          exact hrnot ⟨r2, hr2, this.trans hrnm.symm⟩
        rw [nsDiags] at h0
        simp [hd, h0]
      · simp only [hd, if_false, Nat.add_zero]
        exact ih hnodup2

lemma countP_name_nsDiags_eq_zero {isSys : String → Bool}
    {revSet : List String} {joined : String} {nss : List NamespaceInstance}
    {n : NamespaceInstance}
    (hnodup : (nss.map NamespaceInstance.fullName).Nodup)
    (hmem : n ∈ nss)
    (hres : (resolveNs isSys revSet joined n).1 = none) :
    (nsDiags isSys revSet joined nss).countP
      (fun d => nsDiagName d == some n.fullName) = 0 := by
  rw [List.countP_eq_zero]
  intro d hd
  obtain ⟨r, hr, hfr⟩ := mem_nsDiags.mp hd
  have hn2 : nsDiagName d = some r.fullName := resolveNs_fst_name hfr
  rw [hn2]
  intro hbe
  have heqn : r.fullName = n.fullName := Option.some.inj (beq_iff_eq.mp hbe)
  have : r = n := fullName_inj hnodup hr hmem heqn
  rw [this, hres] at hfr
  cases hfr

lemma not_injected_of_resolveNs_false {isSys : String → Bool}
    {revSet : List String} {joined : String} {nss : List NamespaceInstance}
    {n : NamespaceInstance}
    (hnodup : (nss.map NamespaceInstance.fullName).Nodup)
    (hmem : n ∈ nss)
    (hres : (resolveNs isSys revSet joined n).2 = false) :
    n.fullName ∉ injectedNamespaces isSys revSet joined nss := by
  intro h
  obtain ⟨r, hr, h2, hnm⟩ := mem_injectedNamespaces.mp h
  have : r = n := fullName_inj hnodup hr hmem hnm
  rw [this, hres] at h2
  cases h2

lemma checkPod_eq_some {injected : List String} {p : PodInstance} {d : Diag} :
    checkPod injected p = some d ↔
      d = .podMissingProxy p.fullName ∧ p.ns ∈ injected ∧
      eqFoldFalse (lookupD p.annots sidecarInjectKey) = false ∧
      firstProxyImage p = "" := by
  by_cases h1 : p.ns ∈ injected
  · by_cases h2 : eqFoldFalse (lookupD p.annots sidecarInjectKey) = true
    · simp [checkPod, h1, h2]
    · by_cases h3 : firstProxyImage p = ""
      · simp [checkPod, h1, h2, h3, eq_comm]
      · simp [checkPod, h1, h2, h3]
  · simp [checkPod, h1]

lemma mem_podDiags {injected : List String} {pods : List PodInstance}
    {d : Diag} :
    d ∈ podDiags injected pods ↔
      ∃ p, p ∈ pods ∧ checkPod injected p = some d := by
  simp [podDiags, List.mem_filterMap]

lemma nsDiagName_podDiags {injected : List String} {pods : List PodInstance}
    {d : Diag} (h : d ∈ podDiags injected pods) : nsDiagName d = none := by
  obtain ⟨p, hp, hcp⟩ := mem_podDiags.mp h
  obtain ⟨rfl, -, -, -⟩ := checkPod_eq_some.mp hcp
  rfl

lemma count_podDiags_nsdiag {injected : List String} {pods : List PodInstance}
    {d : Diag} (hname : (nsDiagName d).isSome = true) :
    (podDiags injected pods).count d = 0 := by
  rw [List.count_eq_zero]
  intro hd
  rw [nsDiagName_podDiags hd] at hname
  simp at hname

lemma countP_name_podDiags {injected : List String} {pods : List PodInstance}
    {nm : String} :
    (podDiags injected pods).countP (fun d => nsDiagName d == some nm) = 0 := by
  rw [List.countP_eq_zero]
  intro d hd
  rw [nsDiagName_podDiags hd]
  simp

lemma podMissingProxy_not_mem_nsDiags {isSys : String → Bool}
    {revSet : List String} {joined : String} {nss : List NamespaceInstance}
    {nm : String} :
    Diag.podMissingProxy nm ∉ nsDiags isSys revSet joined nss := by
  intro h
  obtain ⟨r, hr, hfr⟩ := mem_nsDiags.mp h
  have := resolveNs_fst_name hfr
  simp [nsDiagName] at this

lemma resolveNs_snd_joined (isSys : String → Bool) (revSet : List String)
    (j1 j2 : String) (r : NamespaceInstance) :
    (resolveNs isSys revSet j1 r).2 = (resolveNs isSys revSet j2 r).2 := by
  unfold resolveNs
  dsimp only
  repeat' split
  all_goals rfl

lemma resolveNs_fst_erase (isSys : String → Bool) (revSet : List String)
    (j1 j2 : String) (r : NamespaceInstance) :
    (resolveNs isSys revSet j1 r).1.map eraseKnownRevisions
      = (resolveNs isSys revSet j2 r).1.map eraseKnownRevisions := by
  unfold resolveNs
  dsimp only
  repeat' split
  all_goals rfl

lemma nsOutcome_resolveNs_isSome (isSys : String → Bool)
    (revSet : List String) (joined : String) (r : NamespaceInstance) :
    (nsOutcome (resolveNs isSys revSet joined r)).isSome = true := by
  unfold resolveNs
  dsimp only
  repeat' split
  all_goals rfl

lemma cpRevision_eq_some {p : PodInstance} {s : String} :
    cpRevision p = some s ↔
      p.ns = IstioSystemNamespace ∧ lookupD p.labels "app" = "istiod" ∧
      lookupKey p.labels RevisionInjectionLabelName = some s := by
  rw [cpRevision]
  by_cases h : isControlPlane p = true
  · rw [if_pos h]
    rw [isControlPlane, Bool.and_eq_true, beq_iff_eq, beq_iff_eq] at h
    simp [h.1, h.2]
  · rw [if_neg h]
    rw [isControlPlane, Bool.and_eq_true, beq_iff_eq, beq_iff_eq] at h
    constructor
    · intro hc
      cases hc
    · rintro ⟨h1, h2, h3⟩
      exact absurd ⟨h1, h2⟩ h

lemma podFullName_inj {pods : List PodInstance}
    (hnodup : (pods.map PodInstance.fullName).Nodup)
    {p q : PodInstance} (hp : p ∈ pods) (hq : q ∈ pods)
    (h : p.fullName = q.fullName) : p = q :=
  List.inj_on_of_nodup_map hnodup hp hq h

lemma pmp_mem_analyze {isSys : String → Bool} {enumOrder : List String}
    {nss : List NamespaceInstance} {pods : List PodInstance} {nm : String} :
    Diag.podMissingProxy nm ∈ analyze isSys enumOrder nss pods ↔
      Diag.podMissingProxy nm ∈
        podDiags (injectedNamespaces isSys (discoveredRevisions pods)
          (String.intercalate ", " enumOrder) nss) pods := by
  rw [analyze, List.mem_append]
  constructor
  · rintro (h | h)
    · exact absurd h podMissingProxy_not_mem_nsDiags
    · exact h
  · exact Or.inr

/-- C4: the control-plane revision set of pass 1 is exactly the set of
revision-label values of pods whose namespace is the reserved mesh
system namespace and whose `app` label equals `istiod`; control-plane
pods without the revision label and non-control-plane pods contribute
nothing, and the empty pod snapshot yields the empty set. -/
theorem revision_discovery_exact (pods : List PodInstance) :
    (∀ s, s ∈ discoveredRevisions pods ↔
      ∃ p, p ∈ pods ∧ p.ns = IstioSystemNamespace ∧
        lookupD p.labels "app" = "istiod" ∧
        lookupKey p.labels RevisionInjectionLabelName = some s) ∧
    discoveredRevisions [] = [] := by
  constructor
  · intro s
    rw [mem_discoveredRevisions]
    constructor
    · rintro ⟨p, hp, hcp⟩
      obtain ⟨h1, h2, h3⟩ := cpRevision_eq_some.mp hcp
      exact ⟨p, hp, h1, h2, h3⟩
    · rintro ⟨p, hp, h1, h2, h3⟩
      exact ⟨p, hp, cpRevision_eq_some.mpr ⟨h1, h2, h3⟩⟩
  · rfl

/-- C5: a non-system namespace with neither the legacy enablement label
nor the revision label gets exactly one namespace-not-injected
diagnostic and is absent from the injected set. -/
theorem ns_not_injected_exactly_once (isSys : String → Bool)
    (enumOrder : List String) (nss : List NamespaceInstance)
    (pods : List PodInstance) (n : NamespaceInstance)
    (hmem : n ∈ nss)
    (hnodup : (nss.map NamespaceInstance.fullName).Nodup)
    (hsys : isSys n.fullName = false)
    (hleg : lookupKey n.labels InjectionLabelName = none)
    (hrev : lookupKey n.labels RevisionInjectionLabelName = none) :
    (analyze isSys enumOrder nss pods).count
      (Diag.nsNotInjected n.fullName) = 1 ∧
    n.fullName ∉ injectedNamespaces isSys (discoveredRevisions pods)
      (String.intercalate ", " enumOrder) nss := by
  have hlegD : lookupD n.labels InjectionLabelName = "" := by
    rw [lookupD, hleg]
    rfl
  have hres := @resolveNs_absent_absent isSys (discoveredRevisions pods)
    (String.intercalate ", " enumOrder) n hsys hlegD hrev
  constructor
  · rw [analyze, List.count_append,
      count_nsDiags_one hnodup hmem (by rw [hres]),
      count_podDiags_nsdiag (by rfl)]
  · exact not_injected_of_resolveNs_false hnodup hmem (by rw [hres])

/-- C5 witness: scenario B's namespace `ns2` with no labels. -/
theorem ns_not_injected_exactly_once_concrete :
    (analyze sysNone [] [nsPlain] []).count
      (Diag.nsNotInjected nsPlain.fullName) = 1 ∧
    nsPlain.fullName ∉ injectedNamespaces sysNone (discoveredRevisions [])
      (String.intercalate ", " []) [nsPlain] :=
  ns_not_injected_exactly_once sysNone [] [nsPlain] [] nsPlain
    (by decide) (by decide) (by decide) (by decide) (by decide)

/-- C1 counterexample: with control-plane revisions discovered in the
order `a, b`, the Go map range may enumerate them as `b, a` (map
iteration order is unspecified), and the invalid-revision diagnostic
then carries `"b, a"`, which is not the discovery-order join. -/
theorem invalid_revision_order_counterexample :
    List.Perm ["b", "a"] (discoveredRevisions [cpA, cpB]) ∧
    analyze sysNone ["b", "a"] [nsBad] [cpA, cpB]
      = [Diag.nsInvalidInjectorRevision "zzz" "nsb" "b, a"] ∧
    "b, a" ≠ String.intercalate ", " (discoveredRevisions [cpA, cpB]) := by
  decide

/-- C1 (amended): a non-system namespace with only the revision label,
whose value is not among the discovered control-plane revisions, gets
exactly one namespace-invalid-injector-revision diagnostic, carrying
the requested value and the known revisions joined with `", "` in the
Go map enumeration order (an unspecified permutation of the discovery
order); it is the only diagnostic naming the namespace, and the
namespace is not added to the injected set. -/
theorem invalid_revision_exactly_once (isSys : String → Bool)
    (enumOrder : List String) (nss : List NamespaceInstance)
    (pods : List PodInstance) (n : NamespaceInstance) (v : String)
    (hmem : n ∈ nss)
    (hnodup : (nss.map NamespaceInstance.fullName).Nodup)
    (hsys : isSys n.fullName = false)
    (hleg : lookupKey n.labels InjectionLabelName = none)
    (hrev : lookupKey n.labels RevisionInjectionLabelName = some v)
    (hout : v ∉ discoveredRevisions pods)
    (hperm : enumOrder.Perm (discoveredRevisions pods)) :
    (analyze isSys enumOrder nss pods).count
      (Diag.nsInvalidInjectorRevision v n.fullName
        (String.intercalate ", " enumOrder)) = 1 ∧
    (analyze isSys enumOrder nss pods).countP
      (fun d => nsDiagName d == some n.fullName) = 1 ∧
    n.fullName ∉ injectedNamespaces isSys (discoveredRevisions pods)
      (String.intercalate ", " enumOrder) nss := by
  have hlegD : lookupD n.labels InjectionLabelName = "" := by
    rw [lookupD, hleg]
    rfl
  have hres := @resolveNs_rev_invalid isSys (discoveredRevisions pods)
    (String.intercalate ", " enumOrder) n v hsys hlegD hrev hout
  refine ⟨?_, ?_, ?_⟩
  · rw [analyze, List.count_append,
      count_nsDiags_one hnodup hmem (by rw [hres]),
      count_podDiags_nsdiag (by rfl)]
  · rw [analyze, List.countP_append, countP_name_podDiags]
    have hle := @countP_name_nsDiags_le_one isSys (discoveredRevisions pods)
      (String.intercalate ", " enumOrder) nss n.fullName hnodup
    have hmemd : Diag.nsInvalidInjectorRevision v n.fullName
        (String.intercalate ", " enumOrder) ∈
        nsDiags isSys (discoveredRevisions pods)
          (String.intercalate ", " enumOrder) nss :=
      mem_nsDiags.mpr ⟨n, hmem, by rw [hres]⟩
    have hpos : 0 < (nsDiags isSys (discoveredRevisions pods)
        (String.intercalate ", " enumOrder) nss).countP
        (fun d => nsDiagName d == some n.fullName) := by
      rw [List.countP_pos_iff]
      exact ⟨_, hmemd, by simp [nsDiagName]⟩
    omega
  · exact not_injected_of_resolveNs_false hnodup hmem (by rw [hres])

/-- C1 witness: namespace `ns1` requesting the stale revision `stale`
while only `canary` is discovered. -/
theorem invalid_revision_exactly_once_concrete :
    (analyze sysNone ["canary"] [nsStale] [cpCanary]).count
      (Diag.nsInvalidInjectorRevision "stale" nsStale.fullName
        (String.intercalate ", " ["canary"])) = 1 ∧
    (analyze sysNone ["canary"] [nsStale] [cpCanary]).countP
      (fun d => nsDiagName d == some nsStale.fullName) = 1 ∧
    nsStale.fullName ∉ injectedNamespaces sysNone
      (discoveredRevisions [cpCanary])
      (String.intercalate ", " ["canary"]) [nsStale] :=
  invalid_revision_exactly_once sysNone ["canary"] [nsStale] [cpCanary]
    nsStale "stale" (by decide) (by decide) (by decide) (by decide)
    (by decide) (by decide) (by decide)

/-- C2 counterexample: a namespace whose legacy label is present with
the empty value and whose revision label is set is not reported as a
multiple-labels conflict (Go cannot distinguish an empty-valued label
from an absent one), contradicting "regardless of either label's
value". -/
theorem multiple_labels_empty_legacy_counterexample :
    sysNone nsLegacyEmptyRev.fullName = false ∧
    lookupKey nsLegacyEmptyRev.labels InjectionLabelName = some "" ∧
    lookupKey nsLegacyEmptyRev.labels RevisionInjectionLabelName = some "x" ∧
    (analyze sysNone [] [nsLegacyEmptyRev] []).count
      (Diag.nsMultipleInjectionLabels nsLegacyEmptyRev.fullName) = 0 := by
  decide

/-- C2 (amended): a non-system namespace whose legacy enablement label
is set to a non-empty value and whose revision label is set gets, for
any such values, exactly one namespace-multiple-injection-labels
diagnostic and is not added to the injected set. -/
theorem multiple_labels_exactly_once (isSys : String → Bool)
    (enumOrder : List String) (nss : List NamespaceInstance)
    (pods : List PodInstance) (n : NamespaceInstance) (lv rv : String)
    (hmem : n ∈ nss)
    (hnodup : (nss.map NamespaceInstance.fullName).Nodup)
    (hsys : isSys n.fullName = false)
    (hleg : lookupKey n.labels InjectionLabelName = some lv)
    (hlv : lv ≠ "")
    (hrev : lookupKey n.labels RevisionInjectionLabelName = some rv) :
    (analyze isSys enumOrder nss pods).count
      (Diag.nsMultipleInjectionLabels n.fullName) = 1 ∧
    n.fullName ∉ injectedNamespaces isSys (discoveredRevisions pods)
      (String.intercalate ", " enumOrder) nss := by
  have hlegD : lookupD n.labels InjectionLabelName ≠ "" := by
    rw [lookupD, hleg]
    exact hlv
  have hres := @resolveNs_both isSys (discoveredRevisions pods)
    (String.intercalate ", " enumOrder) n rv hsys hlegD hrev
  constructor
  · rw [analyze, List.count_append,
      count_nsDiags_one hnodup hmem (by rw [hres]),
      count_podDiags_nsdiag (by rfl)]
  · exact not_injected_of_resolveNs_false hnodup hmem (by rw [hres])

/-- C2 witness: a namespace with `istio-injection=enabled` and a
revision label. -/
theorem multiple_labels_exactly_once_concrete :
    (analyze sysNone ["a"] [nsBoth] [cpA]).count
      (Diag.nsMultipleInjectionLabels nsBoth.fullName) = 1 ∧
    nsBoth.fullName ∉ injectedNamespaces sysNone
      (discoveredRevisions [cpA]) (String.intercalate ", " ["a"]) [nsBoth] :=
  multiple_labels_exactly_once sysNone ["a"] [nsBoth] [cpA] nsBoth
    "enabled" "a" (by decide) (by decide) (by decide) (by decide)
    (by decide) (by decide)

/-- C6 counterexample: a namespace whose legacy label is present with
the empty value — a value different from `enabled` — and no revision
label does get a diagnostic (namespace-not-injected), contradicting
"no diagnostic is emitted". -/
theorem legacy_opt_out_empty_counterexample :
    sysNone nsLegacyEmptyOnly.fullName = false ∧
    lookupKey nsLegacyEmptyOnly.labels InjectionLabelName = some "" ∧
    "" ≠ InjectionLabelEnableValue ∧
    lookupKey nsLegacyEmptyOnly.labels RevisionInjectionLabelName = none ∧
    Diag.nsNotInjected nsLegacyEmptyOnly.fullName
      ∈ analyze sysNone [] [nsLegacyEmptyOnly] [] := by
  decide

/-- C6 (amended): a non-system namespace whose legacy enablement label
is present with a non-empty value different from `enabled` and whose
revision label is absent gets no diagnostic and is not added to the
injected set. -/
theorem legacy_opt_out_silent (isSys : String → Bool)
    (enumOrder : List String) (nss : List NamespaceInstance)
    (pods : List PodInstance) (n : NamespaceInstance) (lv : String)
    (hmem : n ∈ nss)
    (hnodup : (nss.map NamespaceInstance.fullName).Nodup)
    (hsys : isSys n.fullName = false)
    (hleg : lookupKey n.labels InjectionLabelName = some lv)
    (hlv : lv ≠ "")
    (hlvE : lv ≠ InjectionLabelEnableValue)
    (hrev : lookupKey n.labels RevisionInjectionLabelName = none) :
    (analyze isSys enumOrder nss pods).countP
      (fun d => nsDiagName d == some n.fullName) = 0 ∧
    n.fullName ∉ injectedNamespaces isSys (discoveredRevisions pods)
      (String.intercalate ", " enumOrder) nss := by
  have hlegD : lookupD n.labels InjectionLabelName = lv := by
    rw [lookupD, hleg]
    rfl
  have hres := @resolveNs_legacy_other isSys (discoveredRevisions pods)
    (String.intercalate ", " enumOrder) n hsys
    (by rw [hlegD]; exact hlv) (by rw [hlegD]; exact hlvE) hrev
  constructor
  · rw [analyze, List.countP_append, countP_name_podDiags,
      countP_name_nsDiags_eq_zero hnodup hmem (by rw [hres])]
  · exact not_injected_of_resolveNs_false hnodup hmem (by rw [hres])

/-- C6 witness: a namespace with `istio-injection=disabled`. -/
theorem legacy_opt_out_silent_concrete :
    (analyze sysNone [] [nsDisabled] []).countP
      (fun d => nsDiagName d == some nsDisabled.fullName) = 0 ∧
    nsDisabled.fullName ∉ injectedNamespaces sysNone
      (discoveredRevisions []) (String.intercalate ", " []) [nsDisabled] :=
  legacy_opt_out_silent sysNone [] [nsDisabled] [] nsDisabled "disabled"
    (by decide) (by decide) (by decide) (by decide) (by decide)
    (by decide) (by decide)

/-- C7: a legacy enablement label carried with the empty-string value is
handled exactly as if the label were absent: the namespace outcome is
decided by the revision label alone — namespace-not-injected when it is
absent, otherwise the revision validity check (never the multiple-labels
conflict). -/
theorem empty_legacy_label_as_absent (isSys : String → Bool)
    (revSet : List String) (joined : String) (n : NamespaceInstance)
    (hsys : isSys n.fullName = false)
    (hleg : lookupKey n.labels InjectionLabelName = some "") :
    resolveNs isSys revSet joined n =
      match lookupKey n.labels RevisionInjectionLabelName with
      | none => (some (.nsNotInjected n.fullName), false)
      | some v =>
        if v ∈ revSet then (none, true)
        else (some (.nsInvalidInjectorRevision v n.fullName joined), false) := by
  have hlegD : lookupD n.labels InjectionLabelName = "" := by
    rw [lookupD, hleg]
    rfl
  cases hrev : lookupKey n.labels RevisionInjectionLabelName with
  | none => exact resolveNs_absent_absent hsys hlegD hrev
  | some v =>
    dsimp only
    by_cases hin : v ∈ revSet
    · rw [if_pos hin]
      exact resolveNs_rev_valid hsys hlegD hrev hin
    · rw [if_neg hin]
      exact resolveNs_rev_invalid hsys hlegD hrev hin

/-- C7 witness: a namespace with an empty legacy label and revision
label `x`, against an empty revision set. -/
theorem empty_legacy_label_as_absent_concrete :
    resolveNs sysNone [] "" nsLegacyEmptyRev =
      match lookupKey nsLegacyEmptyRev.labels RevisionInjectionLabelName with
      | none => (some (.nsNotInjected nsLegacyEmptyRev.fullName), false)
      | some v =>
        if v ∈ ([] : List String) then (none, true)
        else (some (.nsInvalidInjectorRevision v nsLegacyEmptyRev.fullName ""),
          false) :=
  empty_legacy_label_as_absent sysNone [] "" nsLegacyEmptyRev
    (by decide) (by decide)

/-- C8: classification of a non-system namespace is exclusive — the
pass-2 iteration result realises exactly one of the five decision-table
outcomes (`nsOutcome` maps it to precisely one tag) — and the run emits
at most one injection-label diagnostic naming the namespace. -/
theorem ns_classification_exclusive (isSys : String → Bool)
    (enumOrder : List String) (nss : List NamespaceInstance)
    (pods : List PodInstance) (n : NamespaceInstance)
    (hmem : n ∈ nss)
    (hnodup : (nss.map NamespaceInstance.fullName).Nodup)
    (hsys : isSys n.fullName = false) :
    (nsOutcome (resolveNs isSys (discoveredRevisions pods)
      (String.intercalate ", " enumOrder) n)).isSome = true ∧
    (analyze isSys enumOrder nss pods).countP
      (fun d => nsDiagName d == some n.fullName) ≤ 1 := by
  constructor
  · exact nsOutcome_resolveNs_isSome isSys (discoveredRevisions pods)
      (String.intercalate ", " enumOrder) n
  · rw [analyze, List.countP_append, countP_name_podDiags]
    have := @countP_name_nsDiags_le_one isSys (discoveredRevisions pods)
      (String.intercalate ", " enumOrder) nss n.fullName hnodup
    omega

/-- C8 witness: the explicitly opted-out namespace `ns8`. -/
theorem ns_classification_exclusive_concrete :
    (nsOutcome (resolveNs sysNone (discoveredRevisions [])
      (String.intercalate ", " []) nsDisabled)).isSome = true ∧
    (analyze sysNone [] [nsDisabled] []).countP
      (fun d => nsDiagName d == some nsDisabled.fullName) ≤ 1 :=
  ns_classification_exclusive sysNone [] [nsDisabled] [] nsDisabled
    (by decide) (by decide) (by decide)

/-- C9: a namespace satisfying the system-namespace predicate never
receives a namespace-policy diagnostic and is never added to the
injected set, whatever its labels. -/
theorem system_ns_never_reported (isSys : String → Bool)
    (enumOrder : List String) (nss : List NamespaceInstance)
    (pods : List PodInstance) (nm : String)
    (hsys : isSys nm = true) :
    (analyze isSys enumOrder nss pods).countP
      (fun d => nsDiagName d == some nm) = 0 ∧
    nm ∉ injectedNamespaces isSys (discoveredRevisions pods)
      (String.intercalate ", " enumOrder) nss := by
  constructor
  · rw [analyze, List.countP_append, countP_name_podDiags]
    have h0 : (nsDiags isSys (discoveredRevisions pods)
        (String.intercalate ", " enumOrder) nss).countP
        (fun d => nsDiagName d == some nm) = 0 := by
      rw [List.countP_eq_zero]
      intro d hd
      obtain ⟨r, hr, hfr⟩ := mem_nsDiags.mp hd
      rw [resolveNs_fst_name hfr]
      intro hbe
      have heq : r.fullName = nm := Option.some.inj (beq_iff_eq.mp hbe)
      have hrs : isSys r.fullName = true := by
        rw [heq]
        exact hsys
      rw [resolveNs_system hrs] at hfr
      cases hfr
    omega
  · intro h
    obtain ⟨r, hr, h2, hnm⟩ := mem_injectedNamespaces.mp h
    have hrs : isSys r.fullName = true := by
      rw [hnm]
      exact hsys
    rw [resolveNs_system hrs] at h2
    cases h2

/-- C9 witness: the heavily labelled `istio-system` namespace under the
predicate holding exactly there. -/
theorem system_ns_never_reported_concrete :
    (analyze sysIstio [] [nsSystem] []).countP
      (fun d => nsDiagName d == some "istio-system") = 0 ∧
    "istio-system" ∉ injectedNamespaces sysIstio (discoveredRevisions [])
      (String.intercalate ", " []) [nsSystem] :=
  system_ns_never_reported sysIstio [] [nsSystem] [] "istio-system"
    (by decide)

/-- C10 counterexample: on one snapshot, two admissible Go map
enumeration orders of the two discovered revisions yield different
diagnostic sequences — the known-revisions argument differs — so the
run is not a deterministic function of the snapshot alone. -/
theorem analysis_not_deterministic_counterexample :
    List.Perm ["a", "b"] (discoveredRevisions [cpA, cpB]) ∧
    List.Perm ["b", "a"] (discoveredRevisions [cpA, cpB]) ∧
    analyze sysNone ["a", "b"] [nsBad] [cpA, cpB]
      ≠ analyze sysNone ["b", "a"] [nsBad] [cpA, cpB] := by
  decide

/-- C10 (amended): two runs on the same snapshot produce diagnostic
sequences that are identical once the known-revisions argument of
invalid-revision diagnostics is erased — the Go map enumeration order
is the only source of variation, and it reaches nothing else. -/
theorem analysis_deterministic_up_to_revision_order
    (isSys : String → Bool) (o1 o2 : List String)
    (nss : List NamespaceInstance) (pods : List PodInstance) :
    (analyze isSys o1 nss pods).map eraseKnownRevisions
      = (analyze isSys o2 nss pods).map eraseKnownRevisions := by
  rw [analyze, analyze, List.map_append, List.map_append]
  have hinj : injectedNamespaces isSys (discoveredRevisions pods)
      (String.intercalate ", " o1) nss
      = injectedNamespaces isSys (discoveredRevisions pods)
        (String.intercalate ", " o2) nss := by
    rw [injectedNamespaces, injectedNamespaces]
    congr 1
    apply List.filter_congr
    intro r _
    rw [resolveNs_snd_joined isSys (discoveredRevisions pods)
      (String.intercalate ", " o1) (String.intercalate ", " o2) r]
  rw [hinj]
  congr 1
  rw [nsDiags, nsDiags, List.map_filterMap, List.map_filterMap]
  apply List.filterMap_congr
  intro r _
  exact resolveNs_fst_erase isSys (discoveredRevisions pods)
    (String.intercalate ", " o1) (String.intercalate ", " o2) r

/-- C3 counterexample: a pod of an injected namespace listing
`istio-proxy` twice, first with an empty image and then with a
non-empty one, is reported missing its proxy (the Go loop breaks at the
first name match) even though a container named `istio-proxy` with a
non-empty image exists. -/
theorem pod_missing_proxy_first_match_counterexample :
    "ns3" ∈ injectedNamespaces sysNone (discoveredRevisions [podDupProxy])
      (String.intercalate ", " []) [nsEnabled] ∧
    podDupProxy.containers.any
      (fun c => c.name == istioProxyName && c.image != "") = true ∧
    Diag.podMissingProxy podDupProxy.fullName
      ∈ analyze sysNone [] [nsEnabled] [podDupProxy] := by
  decide

/-- C3 (amended): a pod of an injected namespace is skipped without
diagnostic when its sidecar-inject annotation case-insensitively equals
`false`; otherwise pod-missing-proxy is emitted iff the first container
named `istio-proxy` is absent or has an empty image (the code stops at
the first name match); pods of non-injected namespaces never produce a
diagnostic. -/
theorem pod_proxy_compliance (isSys : String → Bool)
    (enumOrder : List String) (nss : List NamespaceInstance)
    (pods : List PodInstance) (p : PodInstance)
    (hp : p ∈ pods)
    (hnodup : (pods.map PodInstance.fullName).Nodup) :
    (p.ns ∈ injectedNamespaces isSys (discoveredRevisions pods)
        (String.intercalate ", " enumOrder) nss →
      (eqFoldFalse (lookupD p.annots sidecarInjectKey) = true →
        Diag.podMissingProxy p.fullName ∉ analyze isSys enumOrder nss pods) ∧
      (eqFoldFalse (lookupD p.annots sidecarInjectKey) = false →
        (Diag.podMissingProxy p.fullName ∈ analyze isSys enumOrder nss pods
          ↔ firstProxyImage p = ""))) ∧
    (p.ns ∉ injectedNamespaces isSys (discoveredRevisions pods)
        (String.intercalate ", " enumOrder) nss →
      Diag.podMissingProxy p.fullName ∉ analyze isSys enumOrder nss pods) := by
  constructor
  · intro hin
    constructor
    · intro hfold hmem
      obtain ⟨q, hq, hcq⟩ := mem_podDiags.mp (pmp_mem_analyze.mp hmem)
      obtain ⟨hd, -, hqfold, -⟩ := checkPod_eq_some.mp hcq
      have hqp : q = p :=
        podFullName_inj hnodup hq hp
          (Diag.podMissingProxy.injEq _ _ ▸ congrArg
            (fun d => d) hd ▸ rfl)
      rw [hqp] at hqfold
      rw [hfold] at hqfold
      cases hqfold
    · intro hfold
      constructor
      · intro hmem
        obtain ⟨q, hq, hcq⟩ := mem_podDiags.mp (pmp_mem_analyze.mp hmem)
        obtain ⟨hd, -, -, hqimg⟩ := checkPod_eq_some.mp hcq
        have hnames : p.fullName = q.fullName :=
          Diag.podMissingProxy.injEq _ _ ▸ hd ▸ rfl
        have hqp : q = p := podFullName_inj hnodup hq hp hnames.symm
        rw [hqp] at hqimg
        exact hqimg
      · intro himg
        apply pmp_mem_analyze.mpr
        apply mem_podDiags.mpr
        exact ⟨p, hp, checkPod_eq_some.mpr ⟨rfl, hin, hfold, himg⟩⟩
  · intro hout hmem
    obtain ⟨q, hq, hcq⟩ := mem_podDiags.mp (pmp_mem_analyze.mp hmem)
    obtain ⟨hd, hqin, -, -⟩ := checkPod_eq_some.mp hcq
    have hnames : p.fullName = q.fullName :=
      Diag.podMissingProxy.injEq _ _ ▸ hd ▸ rfl
    have hqp : q = p := podFullName_inj hnodup hq hp hnames.symm
    rw [hqp] at hqin
    exact hout hqin

/-- C3 witness: scenario D — a pod with no proxy container in a
legacy-enabled namespace. -/
theorem pod_proxy_compliance_concrete :
    (podNoProxy.ns ∈ injectedNamespaces sysNone
        (discoveredRevisions [podNoProxy])
        (String.intercalate ", " []) [nsEnabled] →
      (eqFoldFalse (lookupD podNoProxy.annots sidecarInjectKey) = true →
        Diag.podMissingProxy podNoProxy.fullName
          ∉ analyze sysNone [] [nsEnabled] [podNoProxy]) ∧
      (eqFoldFalse (lookupD podNoProxy.annots sidecarInjectKey) = false →
        (Diag.podMissingProxy podNoProxy.fullName
            ∈ analyze sysNone [] [nsEnabled] [podNoProxy]
          ↔ firstProxyImage podNoProxy = ""))) ∧
    (podNoProxy.ns ∉ injectedNamespaces sysNone
        (discoveredRevisions [podNoProxy])
        (String.intercalate ", " []) [nsEnabled] →
      Diag.podMissingProxy podNoProxy.fullName
        ∉ analyze sysNone [] [nsEnabled] [podNoProxy]) :=
  pod_proxy_compliance sysNone [] [nsEnabled] [podNoProxy] podNoProxy
    (by decide) (by decide)
